import Mathlib

/-!
Verification of the Pathweaver LLM request-orchestration layer.

The definitions below are a shallow embedding of the TypeScript/JavaScript
source:
* `src/src/services/llm.ts` — client-side `LLMService` (conversation history,
  response sanitization);
* the server (`server/index.js`, final revision): model fallback list
  construction, model selection, rate-limit header interpretation, 429
  retry-time parsing, tool-call argument parsing with JSON repair, and the
  follow-up message construction.

Machine numbers that the source manipulates as JS numbers are embedded as
`Nat`/`Int`/`ℚ` (the inputs in question are integer header values and decimal
second counts, for which rational arithmetic is the intended semantics).
-/

namespace Pathweaver

/-- `ChatMessage` from `src/src/types.ts` (the `timestamp : Date` field is
embedded as milliseconds since epoch). -/
structure ChatMessage where
  id : String
  role : String
  content : String
  timestamp : Nat
deriving Repr, DecidableEq

/-- `LLMService.addToHistory` from `src/src/services/llm.ts`:
push the message, then if the length exceeds 20 keep only the last 20
(`this.conversationHistory.slice(-20)`). -/
def addToHistory (history : List ChatMessage) (message : ChatMessage) :
    List ChatMessage :=
  let pushed := history ++ [message]
  if 20 < pushed.length then pushed.drop (pushed.length - 20) else pushed

/-- The history obtained by appending a whole sequence of turns with
`addToHistory`, starting from the empty history. -/
def histAfter (turns : List ChatMessage) : List ChatMessage :=
  turns.foldl addToHistory []

/-! ### String utilities shared by the server embedding

JS string operations used by `server/index.js` are embedded over `List Char`. -/

/-- Match a literal character sequence at the head of a string, returning the
remainder on success (the building block for the literal parts of the JS
regexes). -/
def dropLit : List Char → List Char → Option (List Char)
  | [], s => some s
  | _ :: _, [] => none
  | c :: cs, x :: xs => if x = c then dropLit cs xs else none

/-- `String.prototype.includes` (substring test) over `List Char`. -/
def listContainsSub (needle : List Char) : List Char → Bool
  | [] => needle.isEmpty
  | c :: cs => (dropLit needle (c :: cs)).isSome || listContainsSub needle cs

/-- JS `haystack.includes(needle)`. -/
def jsIncludes (haystack needle : String) : Bool :=
  listContainsSub needle.toList haystack.toList

/-- Numeric value of a digit run (`parseInt` on an all-digit string). -/
def digitsToNat (ds : List Char) : Nat :=
  ds.foldl (fun n c => 10 * n + (c.toNat - 48)) 0

/-! ### Rate-Limit Monitor: 429 retry-time extraction

The server parses the provider's 429 error message with the regex
`/try again in (\d+)m(\d+(?:\.\d+)?)s/` and computes
`minutes * 60 + seconds`, defaulting to 60 seconds when the regex does not
match (`server/index.js`, the `retryMatch` sites). -/

/-- The captures of `/try again in (\d+)m(\d+(?:\.\d+)?)s/`: the minutes
digit run, the integer-seconds digit run, and the optional fractional digit
run. -/
structure RetryCapture where
  minutesDigits : List Char
  secondsDigits : List Char
  fracDigits : Option (List Char)
deriving Repr, DecidableEq

/-- Try to match `try again in (\d+)m(\d+(?:\.\d+)?)s` anchored at the head of
the string: the literal prefix, a nonempty digit run, the literal `m`, the
nonempty integer-seconds digit run, an optional `.`-plus-digit-run, then the
literal `s` (greediness of `\d+` makes the regex deterministic here). -/
def matchRetryAt (s : List Char) : Option RetryCapture :=
  match dropLit "try again in ".toList s with
  | none => none
  | some r1 =>
    match r1.takeWhile Char.isDigit, r1.dropWhile Char.isDigit with
    | [], _ => none
    | d1 :: ds1, 'm' :: r3 =>
      match r3.takeWhile Char.isDigit, r3.dropWhile Char.isDigit with
      | [], _ => none
      | d2 :: ds2, 's' :: _ => some ⟨d1 :: ds1, d2 :: ds2, none⟩
      | d2 :: ds2, '.' :: r5 =>
        match r5.takeWhile Char.isDigit, r5.dropWhile Char.isDigit with
        | [], _ => none
        | d3 :: ds3, 's' :: _ => some ⟨d1 :: ds1, d2 :: ds2, some (d3 :: ds3)⟩
        | _, _ => none
      | _, _ => none
    | _, _ => none

/-- First match of the retry-time regex anywhere in the string (the JS regex
scans left to right). -/
def findRetryMatch : List Char → Option RetryCapture
  | [] => none
  | c :: cs =>
    match matchRetryAt (c :: cs) with
    | some v => some v
    | none => findRetryMatch cs

/-- `parseFloat` on the captured seconds text `\d+(\.\d+)?`, as an exact
rational. -/
def capturedSeconds (cap : RetryCapture) : ℚ :=
  match cap.fracDigits with
  | none => (digitsToNat cap.secondsDigits : ℚ)
  | some f =>
    (digitsToNat cap.secondsDigits : ℚ) + (digitsToNat f : ℚ) / (10 : ℚ) ^ f.length

/-- The exact text matched by the regex after the literal `try again in `
prefix, reconstructed from the captures: `<minutes>m<seconds>[.<frac>]s`.
Used to state what shapes the regex accepts. -/
def capText (cap : RetryCapture) : List Char :=
  cap.minutesDigits ++ 'm' :: (cap.secondsDigits ++
    (match cap.fracDigits with
     | none => []
     | some f => '.' :: f) ++ ['s'])

/-- `retryAfterSeconds` as computed by the 429 handlers: the regex captures
turned into `minutes * 60 + seconds`, or the fixed 60-second fallback when the
regex fails to match (also when the error body has no message at all). -/
def retryAfterSeconds (message : Option String) : ℚ :=
  match message with
  | none => 60
  | some msg =>
    match findRetryMatch msg.toList with
    | some cap => digitsToNat cap.minutesDigits * 60 + capturedSeconds cap
    | none => 60

/-! ### Model Registry: fallback list construction (`initializeModelFallbackList`) -/

/-- One entry of the provider's `GET {base}/models` listing, as used by the
server (`data.data` elements). -/
structure ModelEntry where
  id : String
  max_completion_tokens : Int
deriving Repr, DecidableEq

/-- The static default list that `MODEL_FALLBACK_LIST` is initialized with
(kept when the listing request fails). -/
def defaultFallbackList : List String :=
  ["llama-3.3-70b-versatile", "llama-3.1-8b-instant"]

/-- The eligibility filter of `initializeModelFallbackList`: known family
substring, not a guard variant, and enough output-token capacity. -/
def isToolCapable (m : ModelEntry) : Bool :=
  (jsIncludes m.id "llama" || jsIncludes m.id "mixtral" ||
      jsIncludes m.id "gemma" || jsIncludes m.id "deepseek") &&
    !(jsIncludes m.id "guard") && !(jsIncludes m.id "prompt-guard") &&
    decide (4096 ≤ m.max_completion_tokens)

/-- First match of `/(\d+)b/` in a model id: the value of the first digit run
that is immediately followed by `b` (the regex advances one character at a
time on failure, which is observably the same as this scan). -/
def findSizeMatch : List Char → Option Nat
  | [] => none
  | c :: cs =>
    if c.isDigit then
      match (c :: cs).dropWhile Char.isDigit with
      | 'b' :: _ => some (digitsToNat ((c :: cs).takeWhile Char.isDigit))
      | _ => findSizeMatch cs
    else findSizeMatch cs

/-- `parseInt(model.id.match(/(\d+)b/)?.[1] || "0")`. -/
def modelSize (m : ModelEntry) : Nat :=
  (findSizeMatch m.id.toList).getD 0

/-- Stable insertion used to embed `Array.prototype.sort` (stable since
ES2019) with comparator `sizeB - sizeA`: an element is placed before the first
strictly smaller key, after equal keys. -/
def insertBySizeDesc (a : ModelEntry) : List ModelEntry → List ModelEntry
  | [] => [a]
  | b :: bs =>
    if modelSize b < modelSize a then a :: b :: bs else b :: insertBySizeDesc a bs

/-- `toolCapableModels.sort((a, b) => sizeB - sizeA)`, left-to-right stable
insertion sort (descending by parsed parameter count). -/
def sortBySizeDesc (l : List ModelEntry) : List ModelEntry :=
  l.foldl (fun acc a => insertBySizeDesc a acc) []

/-- The bucketed list construction of `initializeModelFallbackList`:
`[best70b?.id, best8b?.id, ...otherSmall.slice(0,2), ...other70b.slice(0,1)]
  .filter(Boolean)`
(`filter(Boolean)` drops both `undefined` entries and empty-string ids). -/
def buildFallbackList (models : List ModelEntry) : List String :=
  let sorted := sortBySizeDesc models
  let best70b := sorted.find? fun m => jsIncludes m.id "70b" && jsIncludes m.id "3.3"
  let best8b := sorted.find? fun m => jsIncludes m.id "8b" && jsIncludes m.id "instant"
  let otherSmall := sorted.filter fun m =>
    decide (modelSize m ≤ 9) && !(best8b.map ModelEntry.id == some m.id)
  let other70b := sorted.filter fun m =>
    jsIncludes m.id "70b" && !(best70b.map ModelEntry.id == some m.id)
  let candidates : List (Option String) :=
    [best70b.map ModelEntry.id, best8b.map ModelEntry.id] ++
      (otherSmall.take 2).map (fun m => some m.id) ++
      (other70b.take 1).map (fun m => some m.id)
  candidates.filterMap fun o =>
    match o with
    | some s => if s = "" then none else some s
    | none => none

/-- `initializeModelFallbackList`: on a failed listing request (or a listing
with no eligible model, which the source turns into a thrown-and-caught
error) the default list is kept; otherwise the bucketed list is built from the
eligible models and becomes `MODEL_FALLBACK_LIST`. -/
def initializeModelFallbackList (fetched : Except Unit (List ModelEntry)) :
    List String :=
  match fetched with
  | .error _ => defaultFallbackList
  | .ok data =>
    let toolCapable := data.filter isToolCapable
    if toolCapable.isEmpty then defaultFallbackList
    else buildFallbackList toolCapable

/-- Model selection at the start of the `chat_request` handler:
`model && MODEL_FALLBACK_LIST.includes(model) ? model : MODEL_FALLBACK_LIST[0]`
(`model` absent or the empty string is falsy; `MODEL_FALLBACK_LIST[0]` is
`undefined` on an empty list, embedded as `head?`). -/
def selectModel (requested : Option String) (fallback : List String) :
    Option String :=
  match requested with
  | some m => if m ≠ "" && fallback.contains m then some m else fallback.head?
  | none => fallback.head?

/-! ### Rate-Limit Monitor: header snapshot (`rate_limit_status` emit)

The server reads the `x-ratelimit-*` response headers, defaults the numeric
values with `parseInt(h) || d` (absent header → `NaN` → default; a literal
`0` is falsy in JS and is also replaced by the default), computes
remaining/limit percentages and flags `warning` when either percentage is
strictly below 20. Integer-valued headers are embedded as `Option Int`. -/

/-- The six `x-ratelimit-*` headers captured by the handler. -/
structure RateLimitHeaders where
  limitRequests : Option Int
  limitTokens : Option Int
  remainingRequests : Option Int
  remainingTokens : Option Int
  resetRequests : Option String
  resetTokens : Option String
deriving Repr, DecidableEq

/-- `parseInt(header) || d` for an integer-valued header: absent (`NaN`) and
`0` are falsy and give the default. -/
def jsOrInt (o : Option Int) (d : Int) : Int :=
  match o with
  | none => d
  | some v => if v = 0 then d else v

/-- A per-axis pair, mirroring the `{requests, tokens}` objects of the
`RateLimitStatus` interface in `src/src/types.ts`. -/
structure AxisPair (α : Type) where
  requests : α
  tokens : α
deriving Repr, DecidableEq

/-- The `rate_limit_status` payload (`RateLimitStatus` in `src/src/types.ts`),
with the percentages as exact rationals. -/
structure RateLimitStatus where
  model : String
  limits : AxisPair Int
  remaining : AxisPair Int
  percentage : AxisPair ℚ
  resetTime : AxisPair (Option String)
  warning : Bool
deriving Repr, DecidableEq

/-- The body of the `rate_limit_status` emit: defaulted counts, percentages
`remaining / limit * 100`, and `isLowCapacity = requestsPercentage < 20 ||
tokensPercentage < 20`. -/
def mkRateLimitStatus (model : String) (h : RateLimitHeaders) : RateLimitStatus :=
  let remainingReqs := jsOrInt h.remainingRequests 0
  let limitReqs := jsOrInt h.limitRequests 1
  let remainingToks := jsOrInt h.remainingTokens 0
  let limitToks := jsOrInt h.limitTokens 1
  let requestsPercentage : ℚ := (remainingReqs : ℚ) / (limitReqs : ℚ) * 100
  let tokensPercentage : ℚ := (remainingToks : ℚ) / (limitToks : ℚ) * 100
  { model := model
    limits := ⟨limitReqs, limitToks⟩
    remaining := ⟨remainingReqs, remainingToks⟩
    percentage := ⟨requestsPercentage, tokensPercentage⟩
    resetTime := ⟨h.resetRequests, h.resetTokens⟩
    warning := decide (requestsPercentage < 20) || decide (tokensPercentage < 20) }

/-- The guarded emit: the status is sent only
`if (rateLimitHeaders.remainingRequests || rateLimitHeaders.remainingTokens)`
— that is, when at least one remaining-count header is present. -/
def emitRateLimitStatus (model : String) (h : RateLimitHeaders) :
    Option RateLimitStatus :=
  if h.remainingRequests.isSome || h.remainingTokens.isSome then
    some (mkRateLimitStatus model h)
  else none

/-! ### Literal string replacement (JS `String.replace` with a literal-text
global regex): scan left to right, replace each non-overlapping leftmost
match, continue after the replacement. -/

/-- The characters `{` and `}`, used by the JSON grammar and the sanitizer
patterns. -/
def lbrace : Char := Char.ofNat 123

def rbrace : Char := Char.ofNat 125

/-- Generic left-to-right scan-and-replace: `try` attempts a match at the
current position and returns the suffix after the match. Fuel is the initial
string length; every successful match consumes at least one character (the
guard keeps the recursion sound even for a hypothetical empty match). -/
def scanReplace (tryMatch : List Char → Option (List Char)) (repl : List Char) :
    Nat → List Char → List Char
  | 0, s => s
  | _ + 1, [] => []
  | fuel + 1, c :: cs =>
    match tryMatch (c :: cs) with
    | some rest =>
      if rest.length ≤ cs.length then repl ++ scanReplace tryMatch repl fuel rest
      else c :: scanReplace tryMatch repl fuel cs
    | none => c :: scanReplace tryMatch repl fuel cs

/-- JS `s.replace(/literal/g, repl)` for a literal pattern. -/
def replaceStr (s pat repl : String) : String :=
  ⟨scanReplace (dropLit pat.toList) repl.toList s.toList.length s.toList⟩

/-! ### Strict JSON parsing (`JSON.parse`)

The tool-call argument strings are parsed with `JSON.parse`; the embedding
implements the JSON grammar: the only valid string escapes are
`\" \\ \/ \b \f \n \r \t \uXXXX` (in particular `\'` is invalid — the repair
target), raw control characters below U+0020 are invalid inside strings (in
particular raw newlines — the other repair target), and numbers follow the
strict JSON shape. Numbers are kept as their raw matched text (no claim
depends on numeric values). -/

inductive Json where
  | null : Json
  | bool : Bool → Json
  | num : String → Json
  | str : String → Json
  | arr : List Json → Json
  | obj : List (String × Json) → Json

/-- JSON whitespace: space, tab, line feed, carriage return. -/
def jsonWs (c : Char) : Bool :=
  c = ' ' || c = '\t' || c = '\n' || c.toNat = 13

def isHexDigit (c : Char) : Bool :=
  c.isDigit || ('a' ≤ c && c ≤ 'f') || ('A' ≤ c && c ≤ 'F')

def hexVal (c : Char) : Nat :=
  if c.isDigit then c.toNat - 48
  else if 'a' ≤ c then c.toNat - 87
  else c.toNat - 55

/-- Parse the body of a JSON string (after the opening quote), returning the
decoded characters and the suffix after the closing quote. A `\uXXXX` escape
is decoded with `Char.ofNat` (lone-surrogate code units degenerate to `\0`;
no claim depends on them). Fuel is the input length. -/
def parseStringBody : Nat → List Char → Option (List Char × List Char)
  | 0, _ => none
  | _ + 1, [] => none
  | fuel + 1, c :: rest =>
    if c = '"' then some ([], rest)
    else if c = '\\' then
      match rest with
      | [] => none
      | e :: rest2 =>
        if e = '"' then
          (parseStringBody fuel rest2).map fun p => ('"' :: p.1, p.2)
        else if e = '\\' then
          (parseStringBody fuel rest2).map fun p => ('\\' :: p.1, p.2)
        else if e = '/' then
          (parseStringBody fuel rest2).map fun p => ('/' :: p.1, p.2)
        else if e = 'b' then
          (parseStringBody fuel rest2).map fun p => (Char.ofNat 8 :: p.1, p.2)
        else if e = 'f' then
          (parseStringBody fuel rest2).map fun p => (Char.ofNat 12 :: p.1, p.2)
        else if e = 'n' then
          (parseStringBody fuel rest2).map fun p => ('\n' :: p.1, p.2)
        else if e = 'r' then
          (parseStringBody fuel rest2).map fun p => (Char.ofNat 13 :: p.1, p.2)
        else if e = 't' then
          (parseStringBody fuel rest2).map fun p => ('\t' :: p.1, p.2)
        else if e = 'u' then
          match rest2 with
          | h1 :: h2 :: h3 :: h4 :: rest3 =>
            if isHexDigit h1 && isHexDigit h2 && isHexDigit h3 && isHexDigit h4 then
              (parseStringBody fuel rest3).map fun p =>
                (Char.ofNat
                    (((hexVal h1 * 16 + hexVal h2) * 16 + hexVal h3) * 16 + hexVal h4)
                  :: p.1, p.2)
            else none
          | _ => none
        else none
    else if c.toNat < 32 then none
    else (parseStringBody fuel rest).map fun p => (c :: p.1, p.2)

/-- Optional fraction part `.` + digits (raw text); `.` without digits is a
parse error. -/
def parseFracPart (s : List Char) : Option (List Char × List Char) :=
  match s with
  | '.' :: r =>
    let ds := r.takeWhile Char.isDigit
    if ds.isEmpty then none else some ('.' :: ds, r.dropWhile Char.isDigit)
  | _ => some ([], s)

/-- Optional exponent part `e|E` + optional sign + digits (raw text). -/
def parseExpPart (s : List Char) : Option (List Char × List Char) :=
  match s with
  | e :: r =>
    if e = 'e' || e = 'E' then
      let (sign, r1) :=
        match r with
        | '+' :: r2 => (['+'], r2)
        | '-' :: r2 => (['-'], r2)
        | _ => (([] : List Char), r)
      let ds := r1.takeWhile Char.isDigit
      if ds.isEmpty then none
      else some (e :: sign ++ ds, r1.dropWhile Char.isDigit)
    else some ([], s)
  | [] => some ([], s)

/-- JSON number: optional `-`, `0` or a nonzero-led digit run, optional
fraction, optional exponent; returns the raw matched text. -/
def parseNumberText (s : List Char) : Option (List Char × List Char) :=
  let (sign, s1) :=
    match s with
    | '-' :: r => ((['-'] : List Char), r)
    | _ => (([] : List Char), s)
  match s1 with
  | '0' :: r =>
    match parseFracPart r with
    | some (ft, r2) =>
      match parseExpPart r2 with
      | some (et, r3) => some (sign ++ '0' :: ft ++ et, r3)
      | none => none
    | none => none
  | c :: r =>
    if c.isDigit then
      let ds := (c :: r).takeWhile Char.isDigit
      let r1 := (c :: r).dropWhile Char.isDigit
      match parseFracPart r1 with
      | some (ft, r2) =>
        match parseExpPart r2 with
        | some (et, r3) => some (sign ++ ds ++ ft ++ et, r3)
        | none => none
      | none => none
    else none
  | [] => none

mutual

/-- Parse one JSON value (leading whitespace allowed), returning the suffix. -/
def parseValue : Nat → List Char → Option (Json × List Char)
  | 0, _ => none
  | fuel + 1, s =>
    match s.dropWhile jsonWs with
    | [] => none
    | c :: rest =>
      if c = '"' then
        match parseStringBody (rest.length + 1) rest with
        | some (cs, r) => some (.str ⟨cs⟩, r)
        | none => none
      else if c = lbrace then
        match rest.dropWhile jsonWs with
        | c2 :: r2 =>
          if c2 = rbrace then some (.obj [], r2)
          else
            match parseMembers fuel rest with
            | some (fields, r3) => some (.obj fields, r3)
            | none => none
        | [] => none
      else if c = '[' then
        match rest.dropWhile jsonWs with
        | c2 :: r2 =>
          if c2 = ']' then some (.arr [], r2)
          else
            match parseElements fuel rest with
            | some (elems, r3) => some (.arr elems, r3)
            | none => none
        | [] => none
      else if c = 'n' then (dropLit "ull".toList rest).map fun r => (.null, r)
      else if c = 't' then (dropLit "rue".toList rest).map fun r => (.bool true, r)
      else if c = 'f' then (dropLit "alse".toList rest).map fun r => (.bool false, r)
      else
        match parseNumberText (c :: rest) with
        | some (txt, r) => some (.num ⟨txt⟩, r)
        | none => none

/-- Parse the members of a nonempty object (input: after the `{`), up to and
including the closing `}`. -/
def parseMembers : Nat → List Char → Option (List (String × Json) × List Char)
  | 0, _ => none
  | fuel + 1, s =>
    match s.dropWhile jsonWs with
    | '"' :: rest =>
      match parseStringBody (rest.length + 1) rest with
      | some (key, r1) =>
        match r1.dropWhile jsonWs with
        | ':' :: r2 =>
          match parseValue fuel r2 with
          | some (v, r3) =>
            match r3.dropWhile jsonWs with
            | ',' :: r4 =>
              match parseMembers fuel r4 with
              | some (fields, r5) => some (((⟨key⟩ : String), v) :: fields, r5)
              | none => none
            | c5 :: r5 =>
              if c5 = rbrace then some ([((⟨key⟩ : String), v)], r5) else none
            | [] => none
          | none => none
        | _ => none
      | none => none
    | _ => none

/-- Parse the elements of a nonempty array (input: after the `[`), up to and
including the closing `]`. -/
def parseElements : Nat → List Char → Option (List Json × List Char)
  | 0, _ => none
  | fuel + 1, s =>
    match parseValue fuel s with
    | some (v, r1) =>
      match r1.dropWhile jsonWs with
      | ',' :: r2 =>
        match parseElements fuel r2 with
        | some (elems, r3) => some (v :: elems, r3)
        | none => none
      | ']' :: r2 => some ([v], r2)
      | _ => none
    | none => none

end

/-- `JSON.parse`: one value, with only trailing whitespace allowed after it.
The fuel bound covers the worst case (one parser step per two characters of
nesting). -/
def parseJson (s : String) : Option Json :=
  let cs := s.toList
  match parseValue (2 * cs.length + 8) cs with
  | some (v, rest) => if (rest.dropWhile jsonWs).isEmpty then some v else none
  | none => none

/-! ### Tool-Call Interpreter and follow-up construction (`chat_request`
handler, first-response processing) -/

/-- The `function` member of a provider tool call. -/
structure ToolCallFunction where
  name : String
  arguments : String
deriving Repr, DecidableEq

/-- A provider tool call: correlation id plus function name and raw JSON
argument string. -/
structure ToolCall where
  id : String
  function : ToolCallFunction
deriving Repr, DecidableEq

/-- A message object as sent to the provider. Inbound messages are cleaned to
`role`/`content` only; the synthetic tool-result turns carry `tool_call_id`
and `name`; the replayed assistant turn carries `tool_calls`. -/
structure JsMessage where
  role : String
  content : String
  tool_call_id : Option String := none
  name : Option String := none
  tool_calls : Option (List ToolCall) := none
deriving Repr, DecidableEq

/-- `messages.map((msg) => ({ role: msg.role, content: msg.content }))`. -/
def cleanMessage (m : JsMessage) : JsMessage :=
  { role := m.role, content := m.content }

/-- The `chat_error` payload emitted on JSON-repair failure. The source
interpolates the JS parser's error message at the end of `details`; the
embedding keeps the fixed prefix. -/
structure ChatError where
  error : String
  details : String
  retry : Bool
deriving Repr, DecidableEq

def jsonFormatError : ChatError :=
  { error := "Tool use failed due to JSON formatting"
    details := "The generated JSX code contains characters that break JSON encoding. Please simplify the component and avoid complex text with quotes or special characters."
    retry := true }

/-- The single repair pass applied to an argument string whose strict parse
failed, exactly as in the source:
`.replace(/\\'/g, "'").replace(/\n/g, "\\n").replace(/\\\\n/g, "\\n")`
(un-escape incorrectly escaped apostrophes, escape raw newlines, collapse
double-escaped newlines). -/
def repairArgs (s : String) : String :=
  replaceStr (replaceStr (replaceStr s "\\\x27" "\x27") "\n" "\\n") "\\\\n" "\\n"

/-- Argument resolution for one tool call: strict parse; on failure repair
once and re-parse once; on a second failure produce the retryable
`chat_error`. -/
def resolveToolArgs (s : String) : Except ChatError Json :=
  match parseJson s with
  | some v => .ok v
  | none =>
    match parseJson (repairArgs s) with
    | some v => .ok v
    | none => .error jsonFormatError

/-- `args.code` — property access on the parsed arguments (on a non-object
value it is `undefined`; with duplicate keys `JSON.parse` keeps the last
one). -/
def jsGetCode (j : Json) : Option Json :=
  match j with
  | .obj fields => (fields.reverse.find? fun p => p.1 = "code").map Prod.snd
  | _ => none

/-- The `dynamic_component_update` payload. -/
structure UiUpdate where
  code : Option Json
  toolCallId : String
  modelName : String

/-- The fixed acknowledgement content of a synthetic tool-result turn. -/
def toolResultContent : String :=
  "Dynamic component successfully created and rendered"

/-- Accumulated effect of the `for (const toolCall of aiMessage.tool_calls)`
loop: UI updates emitted so far, tool-result turns pushed so far, and whether
the handler returned early through the repair-failure `chat_error`. -/
structure ToolLoopResult where
  uiUpdates : List UiUpdate
  toolResponses : List JsMessage
  aborted : Bool

/-- The tool-call loop of the first-response processing: calls whose function
name is not `update_dynamic_component` are skipped; a resolved call emits its
UI update and pushes its tool-result turn; a repair failure aborts the whole
handler (UI updates already emitted stay emitted). -/
def processToolCalls (model : String) : List ToolCall → ToolLoopResult
  | [] => ⟨[], [], false⟩
  | tc :: rest =>
    if tc.function.name = "update_dynamic_component" then
      match resolveToolArgs tc.function.arguments with
      | .ok args =>
        let r := processToolCalls model rest
        ⟨⟨jsGetCode args, tc.id, model⟩ :: r.uiUpdates,
          { role := "tool", content := toolResultContent, tool_call_id := some tc.id,
            name := some tc.function.name } :: r.toolResponses,
          r.aborted⟩
      | .error _ => ⟨[], [], true⟩
    else processToolCalls model rest

/-- The assistant turn replayed in the follow-up message list:
`{ role: "assistant", content: aiMessage.content || "", tool_calls: aiMessage.tool_calls }`. -/
def assistantToolMsg (content : Option String) (tool_calls : Option (List ToolCall)) :
    JsMessage :=
  { role := "assistant", content := content.getD "", tool_calls := tool_calls }

/-- Everything the first-response processing decides: emitted UI updates,
pushed tool-result turns, the message list of the follow-up provider call (if
one is issued), the directly emitted `chat_response` `{content, tool_calls}`
(if no follow-up is issued), and whether the retryable JSON-format
`chat_error` was emitted instead. -/
structure FirstOutcome where
  uiUpdates : List UiUpdate
  toolResponses : List JsMessage
  followUp : Option (List JsMessage)
  direct : Option (String × List ToolCall)
  errorRetry : Bool

/-- First-response processing of the `chat_request` handler: run the
tool-call loop; on abort emit the retryable error; with tool responses build
`followUpMessages = [...cleanMessages, assistantTurn, ...toolResponses]` for
the follow-up call; otherwise emit the first response unchanged
(`content || ""`, `tool_calls || []`). -/
def handleFirstResponse (model : String) (cleanMessages : List JsMessage)
    (aiContent : Option String) (aiToolCalls : Option (List ToolCall)) :
    FirstOutcome :=
  let r := processToolCalls model (aiToolCalls.getD [])
  if r.aborted then
    ⟨r.uiUpdates, r.toolResponses, none, none, true⟩
  else if r.toolResponses.isEmpty then
    ⟨r.uiUpdates, r.toolResponses, none,
      some (aiContent.getD "", aiToolCalls.getD []), false⟩
  else
    ⟨r.uiUpdates, r.toolResponses,
      some (cleanMessages ++ assistantToolMsg aiContent aiToolCalls :: r.toolResponses),
      none, false⟩

/-! ### Client-side response handling (`handleResponse` in
`src/src/services/llm.ts`): sanitize the assistant content, append it to the
conversation history only when the sanitized text is nonempty, and resolve
the promise with the original content. -/

/-- JS `\s` (ASCII whitespace plus NBSP and BOM; further exotic Unicode
spaces are outside the embedded alphabet). -/
def jsWs (c : Char) : Bool :=
  c = ' ' || c = '\t' || c = '\n' || c.toNat = 13 || c.toNat = 11 ||
    c.toNat = 12 || c.toNat = 160 || c.toNat = 65279

/-- `/\[TOOL_CALL\]\s*update_dynamic_component/`. -/
def tryToolCallMarker (s : List Char) : Option (List Char) :=
  (dropLit "[TOOL_CALL]".toList s).bind fun r =>
    dropLit "update_dynamic_component".toList (r.dropWhile jsWs)

/-- `/onClick=\{[^\x7d]*\}>/` — the literal prefix, a brace, a run of
non-brace characters, the closing brace, then `>`. -/
def tryOnClick (s : List Char) : Option (List Char) :=
  (dropLit "onClick=".toList s).bind fun r =>
    match r with
    | c :: r2 =>
      if c = lbrace then
        match r2.dropWhile fun x => decide (x ≠ rbrace) with
        | _ :: '>' :: r4 => some r4
        | _ => none
      else none
    | [] => none

/-- `/onEvent\([^)]*\)[^>]*>/`. -/
def tryOnEvent (s : List Char) : Option (List Char) :=
  (dropLit "onEvent(".toList s).bind fun r =>
    match r.dropWhile fun x => decide (x ≠ ')') with
    | _ :: r2 =>
      match r2.dropWhile fun x => decide (x ≠ '>') with
      | _ :: r3 => some r3
      | [] => none
    | [] => none

/-- Case-insensitive literal match (the tag patterns carry the `i` flag). -/
def dropLitCI : List Char → List Char → Option (List Char)
  | [], s => some s
  | _ :: _, [] => none
  | c :: cs, x :: xs => if x.toLower = c.toLower then dropLitCI cs xs else none

/-- `/<tag[^>]*>/i` for a given literal opening (`<button`, `<div`). -/
def tryOpenTag (tag : List Char) (s : List Char) : Option (List Char) :=
  (dropLitCI tag s).bind fun r =>
    match r.dropWhile fun x => decide (x ≠ '>') with
    | _ :: r2 => some r2
    | [] => none

/-- One global-replace pass over the string. -/
def applyReplace (tryMatch : List Char → Option (List Char)) (repl : List Char)
    (s : List Char) : List Char :=
  scanReplace tryMatch repl s.length s

/-- `/\s+/` — a nonempty whitespace run. -/
def trySpaces (s : List Char) : Option (List Char) :=
  match s with
  | c :: _ => if jsWs c then some (s.dropWhile jsWs) else none
  | [] => none

/-- `String.prototype.trim`. -/
def jsTrim (s : List Char) : List Char :=
  ((s.dropWhile jsWs).reverse.dropWhile jsWs).reverse

/-- The sanitization chain applied to assistant content before it is stored:
strip `[TOOL_CALL] update_dynamic_component` markers, leaked
`onClick=\x7b...\x7d>` and `onEvent(...)...>` fragments, `button`/`div`
markup, collapse whitespace runs to single spaces, and trim. -/
def sanitizeContent (s : String) : String :=
  let l0 := s.toList
  let l1 := applyReplace tryToolCallMarker [] l0
  let l2 := applyReplace tryOnClick [] l1
  let l3 := applyReplace tryOnEvent [] l2
  let l4 := applyReplace (tryOpenTag "<button".toList) [] l3
  let l5 := applyReplace (dropLitCI "</button>".toList) [] l4
  let l6 := applyReplace (tryOpenTag "<div".toList) [] l5
  let l7 := applyReplace (dropLitCI "</div>".toList) [] l6
  let l8 := applyReplace trySpaces [' '] l7
  ⟨jsTrim l8⟩

/-- `handleResponse`: if the response carries (truthy) content, sanitize it;
append an assistant turn to the history only when the sanitized text is
nonempty; in every case resolve with `data.content || ""`. `now` stands for
`Date.now()`. -/
def handleResponse (now : Nat) (history : List ChatMessage)
    (content : Option String) : String × List ChatMessage :=
  let newHistory :=
    match content with
    | some c =>
      if c ≠ "" then
        let clean := sanitizeContent c
        if clean ≠ "" then
          addToHistory history
            { id := toString now, role := "assistant", content := clean,
              timestamp := now }
        else history
      else history
    | none => history
  (content.getD "", newHistory)

theorem histAfter_append (turns : List ChatMessage) (m : ChatMessage) :
    histAfter (turns ++ [m]) = addToHistory (histAfter turns) m := by
  simp [histAfter, List.foldl_append]

theorem addToHistory_drop (ms : List ChatMessage) (m : ChatMessage) :
    addToHistory (ms.drop (ms.length - 20)) m
      = (ms ++ [m]).drop ((ms ++ [m]).length - 20) := by
  by_cases h : ms.length ≤ 19
  · have h0 : ms.length - 20 = 0 := by omega
    have h1 : (ms ++ [m]).length - 20 = 0 := by
      simp only [List.length_append, List.length_singleton]; omega
    rw [h0, h1]
    simp only [List.drop_zero, addToHistory, List.length_append,
      List.length_singleton]
    rw [if_neg (by omega)]
  · have hlen : (ms.drop (ms.length - 20)).length = 20 := by
      simp only [List.length_drop]; omega
    have lhs_eq : addToHistory (ms.drop (ms.length - 20)) m
        = ms.drop (ms.length + 1 - 20) ++ [m] := by
      simp only [addToHistory, List.length_append, hlen, List.length_singleton]
      rw [if_pos (by omega), show 20 + 1 - 20 = 1 from rfl,
        List.drop_append_of_le_length (by omega), List.drop_drop]
      congr 2
      omega
    have rhs_eq : (ms ++ [m]).drop ((ms ++ [m]).length - 20)
        = ms.drop (ms.length + 1 - 20) ++ [m] := by
      simp only [List.length_append, List.length_singleton]
      rw [List.drop_append_of_le_length (by omega)]
    rw [lhs_eq, rhs_eq]

/-- **C1.** For every sequence of appended turns, after each call to
`addToHistory` the conversation history has length at most 20 and equals
exactly the suffix of the most recent (at most) 20 appended turns, in their
original relative order — the oldest turns are evicted first. -/
theorem claim_C1_history_bound (turns : List ChatMessage) :
    (histAfter turns).length ≤ 20 ∧
      histAfter turns = turns.drop (turns.length - 20) := by
  induction turns using List.reverseRecOn with
  | nil => simp [histAfter]
  | append_singleton ms m ih =>
    have hstep : histAfter (ms ++ [m])
        = (ms ++ [m]).drop ((ms ++ [m]).length - 20) := by
      rw [histAfter_append, ih.2, addToHistory_drop]
    refine ⟨?_, hstep⟩
    rw [hstep]
    simp only [List.length_drop, List.length_append, List.length_singleton]
    omega

theorem dropLit_eq : ∀ (lit s r : List Char), dropLit lit s = some r → s = lit ++ r
  | [], s, r, h => by simpa [dropLit] using h
  | c :: cs, [], r, h => by simp [dropLit] at h
  | c :: cs, x :: xs, r, h => by
    simp only [dropLit] at h
    split at h
    · rename_i hx
      subst hx
      simpa using dropLit_eq cs xs r h
    · exact absurd h (by simp)

theorem matchRetryAt_sound {s : List Char} {cap : RetryCapture}
    (h : matchRetryAt s = some cap) :
    (∃ post, s = "try again in ".toList ++ capText cap ++ post) ∧
      cap.minutesDigits ≠ [] ∧ (∀ c ∈ cap.minutesDigits, c.isDigit) ∧
      cap.secondsDigits ≠ [] ∧ (∀ c ∈ cap.secondsDigits, c.isDigit) ∧
      ∀ f ∈ cap.fracDigits, f ≠ [] ∧ ∀ c ∈ f, c.isDigit := by
  unfold matchRetryAt at h
  split at h
  · exact absurd h (by simp)
  next r1 hdrop =>
    have hs : s = "try again in ".toList ++ r1 := dropLit_eq _ _ _ hdrop
    have hr1 : r1.takeWhile Char.isDigit ++ r1.dropWhile Char.isDigit = r1 :=
      List.takeWhile_append_dropWhile _ _
    split at h
    · exact absurd h (by simp)
    next d1 ds1 r3 htake1 hdropw1 =>
      have hr3 : r3.takeWhile Char.isDigit ++ r3.dropWhile Char.isDigit = r3 :=
        List.takeWhile_append_dropWhile _ _
      split at h
      · exact absurd h (by simp)
      next d2 ds2 tl4 htake2 hdropw2 =>
        obtain ⟨rfl⟩ : cap = ⟨d1 :: ds1, d2 :: ds2, none⟩ := by
          simpa using h.symm
        refine ⟨⟨tl4, ?_⟩, by simp, ?_, by simp, ?_, by simp⟩
        · rw [hs, ← hr1, htake1, hdropw1, ← hr3, htake2, hdropw2]
          simp [capText]
        · intro c hc
          exact List.mem_takeWhile_imp (htake1 ▸ hc)
        · intro c hc
          exact List.mem_takeWhile_imp (htake2 ▸ hc)
      next d2 ds2 r5 htake2 hdropw2 =>
        have hr5 : r5.takeWhile Char.isDigit ++ r5.dropWhile Char.isDigit = r5 :=
          List.takeWhile_append_dropWhile _ _
        split at h
        · exact absurd h (by simp)
        next d3 ds3 tl6 htake3 hdropw3 =>
          obtain ⟨rfl⟩ : cap = ⟨d1 :: ds1, d2 :: ds2, some (d3 :: ds3)⟩ := by
            simpa using h.symm
          refine ⟨⟨tl6, ?_⟩, by simp, ?_, by simp, ?_, ?_⟩
          · rw [hs, ← hr1, htake1, hdropw1, ← hr3, htake2, hdropw2, ← hr5,
              htake3, hdropw3]
            simp [capText]
          · intro c hc
            exact List.mem_takeWhile_imp (htake1 ▸ hc)
          · intro c hc
            exact List.mem_takeWhile_imp (htake2 ▸ hc)
          · rintro f hf
            simp only [Option.mem_def, Option.some.injEq] at hf
            subst hf
            exact ⟨by simp, fun c hc => List.mem_takeWhile_imp (htake3 ▸ hc)⟩
        · exact absurd h (by simp)
      · exact absurd h (by simp)
    · exact absurd h (by simp)

theorem findRetryMatch_sound {s : List Char} {cap : RetryCapture}
    (h : findRetryMatch s = some cap) :
    cap.minutesDigits ≠ [] ∧ (∀ c ∈ cap.minutesDigits, c.isDigit) ∧
      ∃ pre post, s = pre ++ "try again in ".toList ++ capText cap ++ post := by
  induction s with
  | nil => simp [findRetryMatch] at h
  | cons c cs ih =>
    rw [findRetryMatch] at h
    cases hm : matchRetryAt (c :: cs) with
    | some v =>
      rw [hm] at h
      obtain rfl : v = cap := by simpa using h
      obtain ⟨⟨post, hpost⟩, hne, hdig, -⟩ := matchRetryAt_sound hm
      exact ⟨hne, hdig, [], post, by simpa using hpost⟩
    | none =>
      rw [hm] at h
      obtain ⟨hne, hdig, pre, post, hpp⟩ := ih h
      exact ⟨hne, hdig, c :: pre, post, by simp [hpp]⟩

/-- **C2 (amended).** The 429 retry-duration pattern accepts only the combined
`<minutes>m<seconds>[.<frac>]s` form after the literal `try again in ` —
the minutes component is mandatory — and whenever the pattern fails to match
(including error bodies that carry only the bare `Y.Ys` form) the retry
duration defaults to exactly 60 seconds. A body with `1m30.5s` parses to
90.5 seconds; a body with the bare `7.66s` falls back to 60. -/
theorem claim_C2_retry_parse :
    (∀ (s : List Char) (cap : RetryCapture), findRetryMatch s = some cap →
      cap.minutesDigits ≠ [] ∧ (∀ c ∈ cap.minutesDigits, c.isDigit) ∧
        ∃ pre post, s = pre ++ "try again in ".toList ++ capText cap ++ post) ∧
    (∀ msg : String, findRetryMatch msg.toList = none →
      retryAfterSeconds (some msg) = 60) ∧
    retryAfterSeconds
        (some "Rate limit reached. Please try again in 1m30.5s. Have a nice day") =
      181 / 2 ∧
    retryAfterSeconds
        (some "Rate limit reached for model. Please try again in 7.66s.") = 60 := by
  refine ⟨?_, ?_, ?_, ?_⟩
  · intro s cap h
    exact findRetryMatch_sound h
  · intro msg h
    simp only [retryAfterSeconds]
    rw [h]
  · have h : findRetryMatch
        "Rate limit reached. Please try again in 1m30.5s. Have a nice day".toList =
          some ⟨['1'], ['3', '0'], some ['5']⟩ := by decide
    simp only [retryAfterSeconds]
    rw [h]
    have d1 : digitsToNat ['1'] = 1 := by decide
    have d2 : digitsToNat ['3', '0'] = 30 := by decide
    have d3 : digitsToNat ['5'] = 5 := by decide
    simp only [capturedSeconds, d1, d2, d3, List.length_singleton]
    norm_num
  · have h : findRetryMatch
        "Rate limit reached for model. Please try again in 7.66s.".toList = none := by
      decide
    simp only [retryAfterSeconds]
    rw [h]

/-- Witness for the hypothesis-bearing parts of `claim_C2_retry_parse`:
a message without the combined form defaults to 60 seconds. -/
theorem claim_C2_retry_parse_witness :
    retryAfterSeconds (some "no retry hint here") = 60 :=
  claim_C2_retry_parse.2.1 "no retry hint here" (by decide)

/-- **C2 (counterexample).** The pattern does *not* accept the bare `Y.Ys`
form: on a 429 body whose embedded retry time is `7.66s`, the regex fails to
match and the computed wait is the 60-second fallback, not 7.66 seconds. -/
theorem claim_C2_retry_parse_counterexample :
    findRetryMatch
        "Rate limit reached for model. Please try again in 7.66s.".toList = none ∧
      retryAfterSeconds
          (some "Rate limit reached for model. Please try again in 7.66s.") = 60 ∧
      (60 : ℚ) ≠ 766 / 100 := by
  refine ⟨by decide, ?_, by norm_num⟩
  have h : findRetryMatch
      "Rate limit reached for model. Please try again in 7.66s.".toList = none := by
    decide
  simp only [retryAfterSeconds]
  rw [h]

/-- **C3.** `initializeModelFallbackList` on a successful listing whose only
eligible model fits none of the size buckets (not a `70b`+`3.3` model, not an
`8b`+`instant` model, parsed size above 9, not a `70b` model): the bucketed
construction produces the empty list, which replaces `MODEL_FALLBACK_LIST` —
violating the invariant that the fallback list always has length ≥ 1. -/
theorem claim_C3_fallback_list_empty :
    initializeModelFallbackList
        (.ok [{ id := "deepseek-r1-distill-qwen-32b", max_completion_tokens := 8192 }])
      = [] := by
  decide

theorem empty_not_mem_buildFallbackList (models : List ModelEntry) :
    "" ∉ buildFallbackList models := by
  intro hmem
  unfold buildFallbackList at hmem
  simp only [List.mem_filterMap] at hmem
  obtain ⟨o, -, ho⟩ := hmem
  cases o with
  | none => simp at ho
  | some s =>
    by_cases hs : s = "" <;> simp [hs] at ho

theorem empty_not_mem_init (fetched : Except Unit (List ModelEntry)) :
    "" ∉ initializeModelFallbackList fetched := by
  cases fetched with
  | error e =>
    show "" ∉ defaultFallbackList
    decide
  | ok data =>
    unfold initializeModelFallbackList
    by_cases h : (data.filter isToolCapable).isEmpty
    · simp only [h, if_true]
      decide
    · simp only [h, if_false]
      exact empty_not_mem_buildFallbackList _

/-- **C7.** For every inbound chat request, the model used for the first
provider call is the requested model when it occurs in the fallback list
produced by `initializeModelFallbackList`, and the head of that list otherwise
(including when no model was requested). -/
theorem claim_C7_model_selection (fetched : Except Unit (List ModelEntry))
    (req : Option String) :
    selectModel req (initializeModelFallbackList fetched) =
      match req with
      | some m =>
        if m ∈ initializeModelFallbackList fetched then some m
        else (initializeModelFallbackList fetched).head?
      | none => (initializeModelFallbackList fetched).head? := by
  cases req with
  | none => rfl
  | some m =>
    simp only [selectModel]
    by_cases hm : m = ""
    · subst hm
      rw [if_neg (empty_not_mem_init fetched)]
      simp
    · by_cases hmem : m ∈ initializeModelFallbackList fetched
      · rw [if_pos hmem, if_pos]
        simp only [Bool.and_eq_true, ne_eq, decide_eq_true_eq]
        exact ⟨hm, List.elem_iff.mpr hmem⟩
      · rw [if_neg hmem, if_neg]
        simp only [Bool.and_eq_true, ne_eq, decide_eq_true_eq, not_and]
        intro _ hc
        exact hmem (List.elem_iff.mp hc)

/-- **C6.** For every emitted rate-limit snapshot, the warning flag is `true`
iff the remaining/limit ratio of the requests axis or of the tokens axis is
strictly below 20% (1/5); in particular a snapshot with both ratios exactly
20% is not flagged, and one with a 19.9% ratio is flagged. -/
theorem claim_C6_warning_threshold :
    (∀ (model : String) (h : RateLimitHeaders) (st : RateLimitStatus),
      emitRateLimitStatus model h = some st →
      (st.warning = true ↔
        (st.remaining.requests : ℚ) / (st.limits.requests : ℚ) < 1 / 5 ∨
          (st.remaining.tokens : ℚ) / (st.limits.tokens : ℚ) < 1 / 5)) ∧
    (mkRateLimitStatus "m"
        ⟨some 100, some 1000, some 20, some 200, none, none⟩).warning = false ∧
    (mkRateLimitStatus "m"
        ⟨some 1000, some 1000, some 199, some 999, none, none⟩).warning = true := by
  refine ⟨?_, ?_, ?_⟩
  · intro model h st hemit
    have hst : st = mkRateLimitStatus model h := by
      unfold emitRateLimitStatus at hemit
      split at hemit
      · exact (Option.some.injEq _ _ ▸ hemit).symm
      · exact absurd hemit (by simp)
    subst hst
    simp only [mkRateLimitStatus, Bool.or_eq_true, decide_eq_true_eq]
    constructor
    · rintro (hlt | hlt)
      · exact Or.inl (by linarith)
      · exact Or.inr (by linarith)
    · rintro (hlt | hlt)
      · exact Or.inl (by linarith)
      · exact Or.inr (by linarith)
  · simp only [mkRateLimitStatus, jsOrInt]
    norm_num
  · simp only [mkRateLimitStatus, jsOrInt]
    norm_num

/-- Witness for `claim_C6_warning_threshold`: at the concrete 19.9% snapshot
the equivalence holds with both sides true. -/
theorem claim_C6_warning_threshold_witness :
    (mkRateLimitStatus "m"
        ⟨some 1000, some 1000, some 199, some 999, none, none⟩).warning = true ↔
      ((mkRateLimitStatus "m"
          ⟨some 1000, some 1000, some 199, some 999, none, none⟩).remaining.requests : ℚ) /
          ((mkRateLimitStatus "m"
            ⟨some 1000, some 1000, some 199, some 999, none, none⟩).limits.requests : ℚ) <
        1 / 5 ∨
      ((mkRateLimitStatus "m"
          ⟨some 1000, some 1000, some 199, some 999, none, none⟩).remaining.tokens : ℚ) /
          ((mkRateLimitStatus "m"
            ⟨some 1000, some 1000, some 199, some 999, none, none⟩).limits.tokens : ℚ) <
        1 / 5 :=
  claim_C6_warning_threshold.1 "m"
    ⟨some 1000, some 1000, some 199, some 999, none, none⟩ _ rfl

/-- **C8.** When only one axis carries a remaining-count header (and the
other axis's headers are absent), the monitor still emits a capacity status;
the missing axis defaults to remaining 0 / limit 1, its percentage is 0, and
the emitted status therefore always has `warning = true`. -/
theorem claim_C8_single_axis_warning :
    (∀ (model : String) (h : RateLimitHeaders),
      h.remainingRequests.isSome = true → h.remainingTokens = none →
      h.limitTokens = none →
      emitRateLimitStatus model h = some (mkRateLimitStatus model h) ∧
        (mkRateLimitStatus model h).percentage.tokens = 0 ∧
        (mkRateLimitStatus model h).warning = true) ∧
    (∀ (model : String) (h : RateLimitHeaders),
      h.remainingTokens.isSome = true → h.remainingRequests = none →
      h.limitRequests = none →
      emitRateLimitStatus model h = some (mkRateLimitStatus model h) ∧
        (mkRateLimitStatus model h).percentage.requests = 0 ∧
        (mkRateLimitStatus model h).warning = true) := by
  constructor
  · intro model h hreq htok hlim
    refine ⟨?_, ?_, ?_⟩
    · unfold emitRateLimitStatus
      rw [if_pos]
      simp [hreq]
    · simp [mkRateLimitStatus, htok, hlim, jsOrInt]
    · simp only [mkRateLimitStatus, htok, hlim, jsOrInt, Bool.or_eq_true,
        decide_eq_true_eq]
      norm_num
  · intro model h htok hreq hlim
    refine ⟨?_, ?_, ?_⟩
    · unfold emitRateLimitStatus
      rw [if_pos]
      simp [htok]
    · simp [mkRateLimitStatus, hreq, hlim, jsOrInt]
    · simp only [mkRateLimitStatus, hreq, hlim, jsOrInt, Bool.or_eq_true,
        decide_eq_true_eq]
      norm_num

/-- Witness for `claim_C8_single_axis_warning`: a response carrying only the
requests-axis headers still yields an emitted, warning-flagged status. -/
theorem claim_C8_single_axis_warning_witness :
    emitRateLimitStatus "m" ⟨some 10, none, some 5, none, none, none⟩ =
        some (mkRateLimitStatus "m" ⟨some 10, none, some 5, none, none, none⟩) ∧
      (mkRateLimitStatus "m"
          ⟨some 10, none, some 5, none, none, none⟩).percentage.tokens = 0 ∧
      (mkRateLimitStatus "m"
          ⟨some 10, none, some 5, none, none, none⟩).warning = true :=
  claim_C8_single_axis_warning.1 "m" ⟨some 10, none, some 5, none, none, none⟩
    rfl rfl rfl

theorem processToolCalls_no_udc (model : String) (tcs : List ToolCall)
    (h : ∀ tc ∈ tcs, tc.function.name ≠ "update_dynamic_component") :
    processToolCalls model tcs = ⟨[], [], false⟩ := by
  induction tcs with
  | nil => rfl
  | cons tc rest ih =>
    rw [processToolCalls, if_neg (h tc (List.mem_cons_self tc rest))]
    exact ih fun tc' h' => h tc' (List.mem_cons_of_mem tc h')

theorem processToolCalls_aborted_false (model : String) (tcs : List ToolCall)
    (h : (processToolCalls model tcs).aborted = false) :
    (processToolCalls model tcs).toolResponses
      = (tcs.filter fun tc =>
          decide (tc.function.name = "update_dynamic_component")).map
          fun tc =>
            { role := "tool", content := toolResultContent,
              tool_call_id := some tc.id, name := some tc.function.name } := by
  induction tcs with
  | nil => rfl
  | cons tc rest ih =>
    by_cases hname : tc.function.name = "update_dynamic_component"
    · rw [processToolCalls, if_pos hname] at h ⊢
      cases hres : resolveToolArgs tc.function.arguments with
      | ok args =>
        rw [hres] at h
        dsimp only at h ⊢
        rw [List.filter_cons_of_pos (by simpa using hname)]
        simp only [List.map_cons]
        rw [← ih h]
      | error e =>
        rw [hres] at h
        simp at h
    · rw [processToolCalls, if_neg hname] at h ⊢
      rw [ih h, List.filter_cons_of_neg (by simpa using hname)]

theorem filter_id_unique (tcs : List ToolCall) (tc : ToolCall)
    (hnd : (tcs.map ToolCall.id).Nodup) (htc : tc ∈ tcs) (p : ToolCall → Bool)
    (hp : p tc = true) :
    (tcs.filter fun x => x.id == tc.id && p x).length = 1 := by
  induction tcs with
  | nil => cases htc
  | cons hd rest ih =>
    simp only [List.map_cons, List.nodup_cons] at hnd
    obtain ⟨hnotin, hndrest⟩ := hnd
    rcases List.mem_cons.mp htc with rfl | hmem
    · rw [List.filter_cons_of_pos (by simp [hp])]
      have hrest : (rest.filter fun x => x.id == tc.id && p x) = [] := by
        rw [List.filter_eq_nil_iff]
        intro x hx hpx
        simp only [Bool.and_eq_true, beq_iff_eq] at hpx
        exact hnotin (hpx.1 ▸ List.mem_map_of_mem ToolCall.id hx)
      simp [hrest]
    · have hne : hd.id ≠ tc.id := fun he =>
        hnotin (he ▸ List.mem_map_of_mem ToolCall.id hmem)
      rw [List.filter_cons_of_neg (by simp [hne])]
      exact ih hndrest hmem

/-- **C4.** Whenever the first-response processing issues a follow-up provider
call, and the first response's tool-call ids are pairwise distinct (they are
correlation ids), then for every tool call of the recognized function name —
all of which were resolved successfully, or no follow-up would exist — the
follow-up message list contains exactly one synthetic tool-result turn whose
`tool_call_id` equals that tool call's id. -/
theorem claim_C4_tool_result_roundtrip (model : String) (msgs : List JsMessage)
    (content : Option String) (tcs : List ToolCall) (fu : List JsMessage)
    (hfu : (handleFirstResponse model (msgs.map cleanMessage) content
        (some tcs)).followUp = some fu)
    (hnd : (tcs.map ToolCall.id).Nodup) :
    ∀ tc ∈ tcs, tc.function.name = "update_dynamic_component" →
      (fu.filter fun m => m.role == "tool" && m.tool_call_id == some tc.id).length
        = 1 := by
  intro tc htc hname
  unfold handleFirstResponse at hfu
  simp only [Option.getD_some] at hfu
  by_cases hab : (processToolCalls model tcs).aborted
  · simp [hab] at hfu
  · have hab' : (processToolCalls model tcs).aborted = false := by
      simpa using hab
    by_cases hemp : (processToolCalls model tcs).toolResponses.isEmpty
    · simp [hab', hemp] at hfu
    · simp only [hab', Bool.false_eq_true, if_false, hemp, if_true,
        Option.some.injEq] at hfu
      subst hfu
      rw [List.filter_append, List.filter_cons]
      have hclean : ((msgs.map cleanMessage).filter fun m =>
          m.role == "tool" && m.tool_call_id == some tc.id) = [] := by
        rw [List.filter_eq_nil_iff]
        intro m hm
        simp only [List.mem_map] at hm
        obtain ⟨m0, -, rfl⟩ := hm
        simp [cleanMessage]
      have hassist : ((assistantToolMsg content (some tcs)).role == "tool" &&
          (assistantToolMsg content (some tcs)).tool_call_id == some tc.id) = false := by
        simp [assistantToolMsg]
      rw [hclean, hassist]
      simp only [List.nil_append, if_false, Bool.false_eq_true]
      rw [processToolCalls_aborted_false model tcs hab']
      rw [List.filter_map]
      rw [List.length_map]
      have hpred : ∀ x : ToolCall,
          (((fun m : JsMessage => m.role == "tool" && m.tool_call_id == some tc.id) ∘
            fun tc' : ToolCall =>
              ({ role := "tool", content := toolResultContent,
                 tool_call_id := some tc'.id, name := some tc'.function.name } : JsMessage)) x)
            = (x.id == tc.id) := by
        intro x
        simp
      rw [List.filter_congr fun x _ => hpred x, List.filter_filter]
      exact filter_id_unique tcs tc hnd htc
        (fun x => decide (x.function.name = "update_dynamic_component"))
        (by simpa using hname)

/-- Witness for `claim_C4_tool_result_roundtrip`: one recognized tool call
with well-formed arguments yields a follow-up whose message list has exactly
one matching tool-result turn. -/
theorem claim_C4_tool_result_roundtrip_witness :
    (([{ role := "user", content := "hi" }].map cleanMessage ++
        assistantToolMsg (some "ok")
            (some [⟨"call_1", ⟨"update_dynamic_component", "\x7b\"code\": \"x\"\x7d"⟩⟩]) ::
          (processToolCalls "m"
            [⟨"call_1", ⟨"update_dynamic_component", "\x7b\"code\": \"x\"\x7d"⟩⟩]).toolResponses).filter
        fun m => m.role == "tool" && m.tool_call_id == some "call_1").length = 1 :=
  claim_C4_tool_result_roundtrip "m" [{ role := "user", content := "hi" }]
    (some "ok") [⟨"call_1", ⟨"update_dynamic_component", "\x7b\"code\": \"x\"\x7d"⟩⟩]
    _ rfl (by simp)
    ⟨"call_1", ⟨"update_dynamic_component", "\x7b\"code\": \"x\"\x7d"⟩⟩
    (List.mem_singleton.mpr rfl) rfl

/-- **C5.** A tool-call argument string whose strict JSON parse fails gets
exactly one pass of the textual repair (un-escape `\'`, escape raw newlines,
collapse double-escaped newlines) and exactly one re-parse of the repaired
string; a second failure produces the retryable `chat_error` (with a nonempty
actionable message) instead of being dropped. The spec fixtures: a raw
newline inside a string value is repaired successfully; an unterminated
object fails twice and yields the retryable error. -/
theorem claim_C5_repair_once :
    (∀ (s : String) (v : Json), parseJson s = none →
      parseJson (repairArgs s) = some v → resolveToolArgs s = .ok v) ∧
    (∀ s : String, parseJson s = none → parseJson (repairArgs s) = none →
      resolveToolArgs s = .error jsonFormatError ∧ jsonFormatError.retry = true ∧
        jsonFormatError.details ≠ "") ∧
    (parseJson "\x7b\"code\": \"<div>Hi</div>\n\"\x7d" = none ∧
      resolveToolArgs "\x7b\"code\": \"<div>Hi</div>\n\"\x7d"
        = .ok (Json.obj [("code", Json.str "<div>Hi</div>\n")])) ∧
    (parseJson "\x7b\"code\": \"It\\\x27s\"\x7d" = none ∧
      resolveToolArgs "\x7b\"code\": \"It\\\x27s\"\x7d"
        = .ok (Json.obj [("code", Json.str "It\x27s")])) ∧
    resolveToolArgs "\x7b\"code\": " = .error jsonFormatError := by
  refine ⟨?_, ?_, ⟨rfl, rfl⟩, ⟨rfl, rfl⟩, rfl⟩
  · intro s v h1 h2
    unfold resolveToolArgs
    rw [h1, h2]
  · intro s h1 h2
    unfold resolveToolArgs
    rw [h1, h2]
    exact ⟨rfl, rfl, by decide⟩

/-- Witness for `claim_C5_repair_once`: the raw-newline fixture goes through
the repaired re-parse, and the unterminated fixture yields the retryable
error. -/
theorem claim_C5_repair_once_witness :
    resolveToolArgs "\x7b\"code\": \"a\nb\"\x7d"
        = .ok (Json.obj [("code", Json.str "a\nb")]) ∧
      resolveToolArgs "not json at all" = .error jsonFormatError ∧
        jsonFormatError.retry = true ∧ jsonFormatError.details ≠ "" :=
  ⟨claim_C5_repair_once.1 "\x7b\"code\": \"a\nb\"\x7d"
      (Json.obj [("code", Json.str "a\nb")]) rfl rfl,
    claim_C5_repair_once.2.1 "not json at all" rfl rfl⟩

/-- **C9.** A first response all of whose tool calls carry an unrecognized
function name produces no UI update, no synthetic tool-result turn, no
follow-up call, and no retryable error; the handler directly emits the first
response's content with its tool calls passed through unchanged. -/
theorem claim_C9_unrecognized_passthrough (model : String)
    (msgs : List JsMessage) (content : String) (tcs : List ToolCall)
    (h : ∀ tc ∈ tcs, tc.function.name ≠ "update_dynamic_component") :
    handleFirstResponse model msgs (some content) (some tcs)
      = ⟨[], [], none, some (content, tcs), false⟩ := by
  unfold handleFirstResponse
  simp only [Option.getD_some]
  rw [processToolCalls_no_udc model tcs h]
  rfl

/-- Witness for `claim_C9_unrecognized_passthrough`: a single unrecognized
tool call is passed through with the narrative. -/
theorem claim_C9_unrecognized_passthrough_witness :
    handleFirstResponse "m" [] (some "The story continues")
        (some [⟨"c1", ⟨"some_other_tool", "\x7b\x7d"⟩⟩])
      = ⟨[], [], none,
          some ("The story continues", [⟨"c1", ⟨"some_other_tool", "\x7b\x7d"⟩⟩]),
          false⟩ :=
  claim_C9_unrecognized_passthrough "m" [] "The story continues"
    [⟨"c1", ⟨"some_other_tool", "\x7b\x7d"⟩⟩] (by simp)

/-- **C10.** When sanitizing a (nonempty) assistant response leaves the empty
string, `handleResponse` still resolves with the original response content
but appends nothing to the conversation history: the history is returned
unchanged. -/
theorem claim_C10_empty_sanitize_no_append (now : Nat)
    (history : List ChatMessage) (c : String)
    (hclean : sanitizeContent c = "") :
    handleResponse now history (some c) = (c, history) := by
  unfold handleResponse
  simp only [hclean, Option.getD_some]
  simp

/-- Witness for `claim_C10_empty_sanitize_no_append`: a response consisting
only of a div tag sanitizes to the empty string, is not appended, and is
still the resolved value. -/
theorem claim_C10_empty_sanitize_no_append_witness :
    handleResponse 7 [] (some "<div>") = ("<div>", []) :=
  claim_C10_empty_sanitize_no_append 7 [] "<div>" (by decide)

end Pathweaver
